import Mathlib

/-!
# VisionCare realtime pipeline — verification of the spec's claims

Shallow embedding of the VisionCare backend's realtime pipeline:
the `WebSocketService` connection manager (clients / sessions maps,
heartbeat, Redis fan-out), the BullMQ queue policies, and the inference
worker's job processor, each translated from the JavaScript source.
JavaScript `Map`s are modelled as association lists with distinct keys,
`Set`s as duplicate-free lists in insertion order, sockets as natural
numbers with their `readyState` given by an environment function, and
asynchronous effects as explicit state passing with `Except` for thrown
errors.
-/

namespace VisionCare

/-! ## Association-list maps (JS `Map`) and insertion-ordered sets (JS `Set`) -/

variable {κ β : Type} [DecidableEq κ]

/-- `Map.get`: the value stored at `key`, if any. -/
def lookupKV : List (κ × β) → κ → Option β
  | [], _ => none
  | (k, v) :: rest, key => if k = key then some v else lookupKV rest key

/-- `Map.set`: replace the binding of `key`, or append a new one. -/
def setKV : List (κ × β) → κ → β → List (κ × β)
  | [], key, v => [(key, v)]
  | (k, w) :: rest, key, v =>
      if k = key then (key, v) :: rest else (k, w) :: setKV rest key v

/-- `Map.delete`: drop the binding of `key`. -/
def eraseKV : List (κ × β) → κ → List (κ × β)
  | [], _ => []
  | (k, v) :: rest, key => if k = key then rest else (k, v) :: eraseKV rest key

/-- A JS `Map` binds each key at most once. -/
def NodupKeys (l : List (κ × β)) : Prop := (l.map Prod.fst).Nodup

/-- `Set.add`: append if not already a member. -/
def addSet {α : Type} [DecidableEq α] (s : List α) (x : α) : List α :=
  if x ∈ s then s else s ++ [x]

/-- `Set.delete`: remove the (unique) occurrence of `x`. -/
def delSet {α : Type} [DecidableEq α] : List α → α → List α
  | [], _ => []
  | y :: rest, x => if y = x then rest else y :: delSet rest x

theorem mem_of_lookupKV_eq_some {l : List (κ × β)} {k : κ} {v : β}
    (h : lookupKV l k = some v) : (k, v) ∈ l := by
  induction l with
  | nil => simp [lookupKV] at h
  | cons p rest ih =>
      obtain ⟨k0, v0⟩ := p
      by_cases hk : k0 = k
      · subst hk
        simp [lookupKV] at h
        simp [h]
      · simp [lookupKV, hk] at h
        exact List.mem_cons_of_mem _ (ih h)

theorem lookupKV_eq_some_of_mem {l : List (κ × β)} {k : κ} {v : β}
    (hnd : NodupKeys l) (h : (k, v) ∈ l) : lookupKV l k = some v := by
  induction l with
  | nil => simp at h
  | cons p rest ih =>
      obtain ⟨k0, v0⟩ := p
      have h1 : k0 ∉ rest.map Prod.fst := (List.nodup_cons.mp hnd).1
      have h2 : NodupKeys rest := (List.nodup_cons.mp hnd).2
      rcases List.mem_cons.mp h with h3 | h3
      · cases h3
        simp [lookupKV]
      · have hk0 : k0 ≠ k := by
          intro he
          have hmem : k ∈ rest.map Prod.fst := List.mem_map_of_mem Prod.fst h3
          exact h1 (he ▸ hmem)
        simp [lookupKV, hk0, ih h2 h3]

theorem lookupKV_eq_none_of_not_mem {l : List (κ × β)} {k : κ}
    (h : k ∉ l.map Prod.fst) : lookupKV l k = none := by
  induction l with
  | nil => simp [lookupKV]
  | cons p rest ih =>
      obtain ⟨k0, v0⟩ := p
      simp only [List.map_cons, List.mem_cons] at h
      push_neg at h
      simp [lookupKV, Ne.symm h.1, ih h.2]

theorem not_mem_keys_of_lookupKV_eq_none {l : List (κ × β)} {k : κ}
    (h : lookupKV l k = none) : k ∉ l.map Prod.fst := by
  induction l with
  | nil => simp
  | cons p rest ih =>
      obtain ⟨k0, v0⟩ := p
      by_cases hk : k0 = k
      · simp [lookupKV, hk] at h
      · simp only [lookupKV, hk, if_false] at h
        simp only [List.map_cons, List.mem_cons]
        push_neg
        exact ⟨fun he => hk he.symm, ih h⟩

theorem lookupKV_setKV_self (l : List (κ × β)) (k : κ) (v : β) :
    lookupKV (setKV l k v) k = some v := by
  induction l with
  | nil => simp [setKV, lookupKV]
  | cons p rest ih =>
      obtain ⟨k0, v0⟩ := p
      by_cases hk : k0 = k
      · simp [setKV, hk, lookupKV]
      · simp [setKV, hk, lookupKV, ih]

theorem lookupKV_setKV_ne (l : List (κ × β)) {k k' : κ} (v : β) (h : k' ≠ k) :
    lookupKV (setKV l k v) k' = lookupKV l k' := by
  induction l with
  | nil => simp [setKV, lookupKV, Ne.symm h]
  | cons p rest ih =>
      obtain ⟨k0, v0⟩ := p
      by_cases hk : k0 = k
      · subst hk
        simp [setKV, lookupKV, Ne.symm h]
      · by_cases hk' : k0 = k'
        · subst hk'
          simp [setKV, hk, lookupKV]
        · simp [setKV, hk, lookupKV, hk', ih]

theorem map_fst_setKV (l : List (κ × β)) (k : κ) (v : β) :
    (setKV l k v).map Prod.fst =
      if k ∈ l.map Prod.fst then l.map Prod.fst else l.map Prod.fst ++ [k] := by
  induction l with
  | nil => simp [setKV]
  | cons p rest ih =>
      obtain ⟨k0, v0⟩ := p
      by_cases hk : k0 = k
      · subst hk
        simp [setKV]
      · have hne : k ≠ k0 := fun he => hk he.symm
        by_cases hmem : k ∈ rest.map Prod.fst
        · simp [setKV, hk, ih, hmem, hne]
        · simp [setKV, hk, ih, hmem, hne]

theorem mem_keys_setKV {l : List (κ × β)} {k k' : κ} {v : β} :
    k' ∈ (setKV l k v).map Prod.fst ↔ k' ∈ l.map Prod.fst ∨ k' = k := by
  rw [map_fst_setKV]
  by_cases hmem : k ∈ l.map Prod.fst
  · simp only [hmem, if_true]
    exact ⟨Or.inl, fun h => h.elim id fun he => he ▸ hmem⟩
  · simp [hmem, List.mem_append]

theorem nodupKeys_setKV {l : List (κ × β)} (k : κ) (v : β) (hnd : NodupKeys l) :
    NodupKeys (setKV l k v) := by
  rw [NodupKeys, map_fst_setKV]
  by_cases hmem : k ∈ l.map Prod.fst
  · simpa [hmem] using hnd
  · simp only [hmem, if_false]
    refine List.Nodup.append hnd (List.nodup_singleton k) ?_
    intro a ha hb
    rw [List.mem_singleton] at hb
    subst hb
    exact hmem ha

theorem mem_setKV {l : List (κ × β)} {k k' : κ} {v v' : β} (hnd : NodupKeys l) :
    (k', v') ∈ setKV l k v ↔ (k' = k ∧ v' = v) ∨ ((k', v') ∈ l ∧ k' ≠ k) := by
  constructor
  · intro h
    by_cases hk : k' = k
    · subst hk
      have h1 := lookupKV_eq_some_of_mem (nodupKeys_setKV k' v hnd) h
      rw [lookupKV_setKV_self] at h1
      exact Or.inl ⟨rfl, (Option.some.inj h1).symm⟩
    · have h1 := lookupKV_eq_some_of_mem (nodupKeys_setKV k v hnd) h
      rw [lookupKV_setKV_ne l v hk] at h1
      exact Or.inr ⟨mem_of_lookupKV_eq_some h1, hk⟩
  · intro h
    rcases h with ⟨ha, hb⟩ | ⟨ha, hb⟩
    · subst ha; subst hb
      exact mem_of_lookupKV_eq_some (lookupKV_setKV_self l k' v')
    · have h1 := lookupKV_eq_some_of_mem hnd ha
      exact mem_of_lookupKV_eq_some (by rw [lookupKV_setKV_ne l v hb]; exact h1)

theorem eraseKV_sublist (l : List (κ × β)) (k : κ) : (eraseKV l k).Sublist l := by
  induction l with
  | nil => simp [eraseKV]
  | cons p rest ih =>
      obtain ⟨k0, v0⟩ := p
      by_cases hk : k0 = k
      · subst hk
        simp only [eraseKV, if_true]
        exact List.Sublist.cons (k0, v0) (List.Sublist.refl rest)
      · simp only [eraseKV, hk, if_false]
        exact List.Sublist.cons₂ (k0, v0) ih

theorem nodupKeys_eraseKV {l : List (κ × β)} (k : κ) (hnd : NodupKeys l) :
    NodupKeys (eraseKV l k) :=
  List.Nodup.sublist ((eraseKV_sublist l k).map Prod.fst) hnd

theorem lookupKV_eraseKV_self {l : List (κ × β)} (k : κ) (hnd : NodupKeys l) :
    lookupKV (eraseKV l k) k = none := by
  induction l with
  | nil => simp [eraseKV, lookupKV]
  | cons p rest ih =>
      obtain ⟨k0, v0⟩ := p
      have h1 : k0 ∉ rest.map Prod.fst := (List.nodup_cons.mp hnd).1
      have h2 : NodupKeys rest := (List.nodup_cons.mp hnd).2
      by_cases hk : k0 = k
      · subst hk
        simpa [eraseKV] using lookupKV_eq_none_of_not_mem h1
      · simp [eraseKV, hk, lookupKV, ih h2]

theorem lookupKV_eraseKV_ne (l : List (κ × β)) {k k' : κ} (h : k' ≠ k) :
    lookupKV (eraseKV l k) k' = lookupKV l k' := by
  induction l with
  | nil => simp [eraseKV]
  | cons p rest ih =>
      obtain ⟨k0, v0⟩ := p
      by_cases hk : k0 = k
      · subst hk
        simp [eraseKV, lookupKV, Ne.symm h]
      · by_cases hk' : k0 = k'
        · subst hk'
          simp [eraseKV, hk, lookupKV]
        · simp [eraseKV, hk, lookupKV, hk', ih]

theorem mem_eraseKV {l : List (κ × β)} {k k' : κ} {v' : β} (hnd : NodupKeys l) :
    (k', v') ∈ eraseKV l k ↔ (k', v') ∈ l ∧ k' ≠ k := by
  constructor
  · intro h
    refine ⟨(eraseKV_sublist l k).subset h, ?_⟩
    intro hke
    rw [hke] at h
    have h1 := lookupKV_eq_some_of_mem (nodupKeys_eraseKV k hnd) h
    rw [lookupKV_eraseKV_self k hnd] at h1
    exact Option.noConfusion h1
  · rintro ⟨h1, h2⟩
    have h3 := lookupKV_eq_some_of_mem hnd h1
    exact mem_of_lookupKV_eq_some (by rw [lookupKV_eraseKV_ne l h2]; exact h3)

theorem mem_addSet {α : Type} [DecidableEq α] {s : List α} {x y : α} :
    y ∈ addSet s x ↔ y ∈ s ∨ y = x := by
  by_cases h : x ∈ s
  · simp only [addSet, h, if_true]
    exact ⟨Or.inl, fun hy => hy.elim id fun he => he ▸ h⟩
  · simp [addSet, h, List.mem_append]

theorem nodup_addSet {α : Type} [DecidableEq α] {s : List α} (x : α)
    (h : s.Nodup) : (addSet s x).Nodup := by
  by_cases hx : x ∈ s
  · simpa [addSet, hx] using h
  · simp only [addSet, hx, if_false]
    refine List.Nodup.append h (List.nodup_singleton x) ?_
    intro a ha hb
    rw [List.mem_singleton] at hb
    subst hb
    exact hx ha

theorem addSet_ne_nil {α : Type} [DecidableEq α] (s : List α) (x : α) :
    addSet s x ≠ [] := by
  by_cases hx : x ∈ s
  · simp only [addSet, hx, if_true]
    intro h
    subst h
    simp at hx
  · simp [addSet, hx]

theorem mem_delSet {α : Type} [DecidableEq α] {s : List α} {x y : α}
    (hnd : s.Nodup) : y ∈ delSet s x ↔ y ∈ s ∧ y ≠ x := by
  induction s with
  | nil => simp [delSet]
  | cons z rest ih =>
      have h1 : z ∉ rest := (List.nodup_cons.mp hnd).1
      have h2 : rest.Nodup := (List.nodup_cons.mp hnd).2
      by_cases hz : z = x
      · subst hz
        simp only [delSet, if_true, List.mem_cons]
        constructor
        · intro h
          refine ⟨Or.inr h, ?_⟩
          intro he
          subst he
          exact h1 h
        · rintro ⟨h3, h4⟩
          rcases h3 with h5 | h5
          · exact absurd h5 h4
          · exact h5
      · simp only [delSet, hz, if_false, List.mem_cons]
        constructor
        · intro h
          rcases h with h3 | h3
          · subst h3
            exact ⟨Or.inl rfl, hz⟩
          · obtain ⟨h4, h5⟩ := (ih h2).mp h3
            exact ⟨Or.inr h4, h5⟩
        · rintro ⟨h3, h4⟩
          rcases h3 with h5 | h5
          · exact Or.inl h5
          · exact Or.inr ((ih h2).mpr ⟨h5, h4⟩)

theorem nodup_delSet {α : Type} [DecidableEq α] {s : List α} (x : α)
    (hnd : s.Nodup) : (delSet s x).Nodup := by
  induction s with
  | nil => simp [delSet]
  | cons z rest ih =>
      have h1 : z ∉ rest := (List.nodup_cons.mp hnd).1
      have h2 : rest.Nodup := (List.nodup_cons.mp hnd).2
      by_cases hz : z = x
      · simpa [delSet, hz] using h2
      · have h3 : z ∉ delSet rest x := fun hm => h1 ((mem_delSet h2).mp hm).1
        simpa [delSet, hz, List.nodup_cons] using And.intro h3 (ih h2)

theorem delSet_eq_nil_iff {α : Type} [DecidableEq α] {s : List α} {x : α}
    (hx : x ∈ s) : delSet s x = [] ↔ s = [x] := by
  induction s with
  | nil => simp at hx
  | cons z rest ih =>
      by_cases hz : z = x
      · subst hz
        simp [delSet]
      · simp only [delSet, hz, if_false]
        constructor
        · intro h
          exact absurd h (List.cons_ne_nil _ _)
        · intro h
          injection h with h1 h2
          exact absurd h1 hz

/-! ## `WebSocketService` (backend/services/websocket.service.js)

Sockets are numbered; their transport `readyState` (1 = OPEN) lives outside
the service and is supplied as an environment function `rs`.  `ws.send` on an
OPEN socket is modelled as a performed write (recorded in the returned write
list); on a non-OPEN socket `sendToClient` returns `false` and writes
nothing. -/

/-- One entry of the `clients` map, as built in `handleConnection`. -/
structure ClientInfo where
  sessionId : String
  connectedAt : Nat
  ip : String
  isAlive : Bool
  metadata : List (String × String)
deriving DecidableEq

/-- The service's two maps: `clients : Map<WebSocket, ClientInfo>` and
`sessions : Map<sessionId, Set<WebSocket>>`. -/
structure WSState where
  clients : List (Nat × ClientInfo)
  sessions : List (String × List Nat)
deriving DecidableEq

/-- `sendToClient`: `if (ws.readyState !== 1) return false; ws.send(...); return true`. -/
def sendToClient (rs : Nat → Nat) (ws : Nat) : Bool :=
  rs ws == 1

/-- `sendToSession`: write `data` to every connection of the session, counting
successful writes; `0` when the session has no local connections.  The second
component records the writes performed (socket, payload). -/
def sendToSession {μ : Type} (st : WSState) (rs : Nat → Nat) (sessionId : String)
    (data : μ) : Nat × List (Nat × μ) :=
  match lookupKV st.sessions sessionId with
  | none => (0, [])
  | some conns =>
      conns.foldl
        (fun acc ws =>
          if sendToClient rs ws then (acc.1 + 1, acc.2 ++ [(ws, data)]) else acc)
        (0, [])

/-- The transport handshake request.  `handleConnection` reads only
`request.socket.remoteAddress`; a session identifier the client may have
supplied (e.g. in the URL) is carried here so the embedding can observe that
the code never reads it. -/
structure ConnRequest where
  remoteAddress : String
  suppliedSessionId : Option String
deriving DecidableEq

/-- Outbound messages written to a socket. -/
inductive OutMsg
  | connection (sessionId : String) (message : String)
  | pong (timestamp : Nat)
  | stats
  | blinkQueued (frameId : Nat)
  | echo (length : Nat)
  | errorMsg (code message : String)
deriving DecidableEq

/-- `handleConnection`: generate a fresh session id (`uuidv4()`), store the
`ClientInfo`, add the socket to the session's set (creating it when absent),
and send the welcome `connection` message. -/
def handleConnection (st : WSState) (rs : Nat → Nat) (ws : Nat) (freshId : String)
    (now : Nat) (req : ConnRequest) : WSState × List (Nat × OutMsg) :=
  let info : ClientInfo :=
    { sessionId := freshId, connectedAt := now, ip := req.remoteAddress,
      isAlive := true, metadata := [] }
  let clients1 := setKV st.clients ws info
  let conns0 := (lookupKV st.sessions freshId).getD []
  let sessions1 := setKV st.sessions freshId (addSet conns0 ws)
  (⟨clients1, sessions1⟩,
    if sendToClient rs ws then
      [(ws, OutMsg.connection freshId "Connected successfully")]
    else [])

/-- `handlePong`: mark the client's liveness flag true. -/
def handlePong (st : WSState) (ws : Nat) : WSState :=
  match lookupKV st.clients ws with
  | none => st
  | some info =>
      { st with clients := setKV st.clients ws { info with isAlive := true } }

/-- Events `emit`ted by the service around a close. -/
inductive Emitted
  | session_ended (sessionId : String)
  | client_disconnected (sessionId : String)
deriving DecidableEq

/-- `handleClose`: drop the socket from its session's set (deleting the
session and emitting `session_ended` when the set becomes empty), drop it from
`clients`, and emit `client_disconnected`. -/
def handleClose (st : WSState) (ws : Nat) : WSState × List Emitted :=
  match lookupKV st.clients ws with
  | none => (st, [])
  | some info =>
      let pr : List (String × List Nat) × List Emitted :=
        match lookupKV st.sessions info.sessionId with
        | none => (st.sessions, [])
        | some conns =>
            let conns1 := delSet conns ws
            if conns1.length = 0 then
              (eraseKV st.sessions info.sessionId,
                [Emitted.session_ended info.sessionId])
            else (setKV st.sessions info.sessionId conns1, [])
      (⟨eraseKV st.clients ws, pr.1⟩,
        pr.2 ++ [Emitted.client_disconnected info.sessionId])

/-! ### Heartbeat (`startHeartbeat` / `handlePong`)

The 30-second timer acts on each `clients` entry independently; one entry's
lifecycle is modelled as a state machine over tick and pong events.
`terminated` records that `ws.terminate()` was called (after which the entry
is gone and later events are no-ops). -/

inductive HBEvent
  | tick
  | pong
deriving DecidableEq

structure HBConn where
  isAlive : Bool
  terminated : Bool
deriving DecidableEq

/-- One heartbeat interval's action on a connection (`startHeartbeat`'s
callback), or an inbound pong (`handlePong`). -/
def hbStep (c : HBConn) : HBEvent → HBConn
  | .tick =>
      if c.terminated then c
      else if c.isAlive = false then { c with terminated := true }
      else { c with isAlive := false }
  | .pong => if c.terminated then c else { c with isAlive := true }

def hbRun (c : HBConn) (evs : List HBEvent) : HBConn := evs.foldl hbStep c

/-- A connection as registered by `handleConnection` (`isAlive: true`). -/
def hbFresh : HBConn := ⟨true, false⟩

/-- A sequence of heartbeat intervals: each entry is the number of pongs the
client sends during the interval that follows that tick. -/
def roundTrace (ns : List Nat) : List HBEvent :=
  ns.flatMap fun n => HBEvent.tick :: List.replicate n HBEvent.pong

/-! ### Redis subscription (`setupRedisSubscriptions`) -/

/-- The Result Bus channels subscribed at startup. -/
def redisChannels : List String :=
  ["blink-updates", "sensor-updates", "inference-results", "broadcast"]

structure SubscribeOutcome where
  channelsRequested : List String
  loggedError : Option String
  startupAborted : Bool
deriving DecidableEq

/-- `setupRedisSubscriptions`: subscribe to all four channels; a rejection of
the subscribe promise is caught and logged (`.catch(err => console.error(...))`)
and nothing aborts. -/
def setupRedisSubscriptions (subscribeResult : Except String Unit) : SubscribeOutcome :=
  match subscribeResult with
  | .ok _ =>
      { channelsRequested := redisChannels, loggedError := none, startupAborted := false }
  | .error e =>
      { channelsRequested := redisChannels, loggedError := some e, startupAborted := false }

/-- The `WebSocketService` constructor: set up the Redis subscriptions, then
unconditionally finish starting (handlers installed, heartbeat started) —
the `Bool` is whether the service ends up running. -/
def wsServiceStartup (subscribeResult : Except String Unit) : SubscribeOutcome × Bool :=
  (setupRedisSubscriptions subscribeResult, true)

/-! ### Inbound message dispatch (`handleMessage` + app.js `setupWebSocketHandlers`) -/

/-- The app-level message schema: `{ type, data }` with `data.frameId`
optionally present.  A `parsed` value models a successful `JSON.parse`. -/
structure JsonData where
  frameId : Option Nat
deriving DecidableEq

structure JsonMsg where
  type : String
  data : Option JsonData
deriving DecidableEq

/-- An inbound transport payload: a string (with the outcome of `JSON.parse`
on it) or binary data. -/
inductive WsPayload
  | text (raw : String) (parsed : Option JsonMsg)
  | binary (bytes : List Nat)

/-- What `handleMessage` emits for a payload. -/
inductive Dispatched
  | json_message (m : JsonMsg)
  | text_message (raw : String)
  | binary_message (bytes : List Nat)
  | dropped
deriving DecidableEq

/-- `handleMessage`: unknown sockets are dropped; strings are parsed as JSON
(`json_message`), falling back to freeform text (`text_message`); anything
else is binary (`binary_message`, the frame-ingestion path). -/
def handleMessage (st : WSState) (ws : Nat) (p : WsPayload) : Dispatched :=
  match lookupKV st.clients ws with
  | none => .dropped
  | some _ =>
      match p with
      | .text _ (some m) => .json_message m
      | .text raw none => .text_message raw
      | .binary bytes => .binary_message bytes

/-- The reply produced by the app's `json_message` handler. -/
inductive JsonAction
  | sendPong (timestamp : Nat)
  | sendStats
  | sendBlinkQueued (frameId : Nat)
  | noReply
  | unknownLogged (t : String)
  | errorSent
deriving DecidableEq

/-- The `json_message` handler installed by `setupWebSocketHandlers` (app.js):
`switch (type)` over `ping`, `get_stats`, `request_blink_detection`, with an
unknown type logged and ignored.  Reading `data.frameId` when the message has
no `data` object throws, which the surrounding try/catch turns into an error
event; a `frameId` of `0` (or absent) is falsy and produces no reply. -/
def handleJsonMessage (now : Nat) (m : JsonMsg) : JsonAction :=
  if m.type = "ping" then .sendPong now
  else if m.type = "get_stats" then .sendStats
  else if m.type = "request_blink_detection" then
    match m.data with
    | none => .errorSent
    | some d =>
        match d.frameId with
        | some fid => if fid ≠ 0 then .sendBlinkQueued fid else .noReply
        | none => .noReply
  else .unknownLogged m.type

/-! ## Job queue policies (backend/queues/queue.config.js) -/

inductive BackoffKind
  | fixed
  | exponential
deriving DecidableEq

structure JobOpts where
  attempts : Nat
  backoffType : BackoffKind
  backoffDelay : Nat
deriving DecidableEq

/-- The options `addFrameJob` passes to `frameQueue.add`. -/
def addFrameJobOpts : JobOpts := ⟨3, BackoffKind.exponential, 2000⟩

/-- The options `addInferenceJob` passes to `inferenceQueue.add`. -/
def addInferenceJobOpts : JobOpts := ⟨2, BackoffKind.fixed, 5000⟩

/-- Modelled from the spec: the Job Queue broker (BullMQ) is an external
collaborator; its contract retries a failing attempt after the policy's
backoff delay until attempts are exhausted.  Delay (ms) waited after the
`n`-th failed attempt: fixed keeps the base delay, exponential doubles it
each round. -/
def backoffDelayFor (opts : JobOpts) (n : Nat) : Nat :=
  match opts.backoffType with
  | .fixed => opts.backoffDelay
  | .exponential => opts.backoffDelay * 2 ^ (n - 1)

/-- Modelled from the spec: run a job's handler attempt by attempt (at most
`fuel` more attempts, the current one numbered `n`), waiting the backoff delay
between attempts; returns (attempts made, delays waited, success). -/
def runAttempts (opts : JobOpts) (handler : Nat → Bool) :
    Nat → Nat → Nat × List Nat × Bool
  | 0, _ => (0, [], false)
  | fuel + 1, n =>
      if handler n then (1, [], true)
      else if fuel = 0 then (1, [], false)
      else
        let r := runAttempts opts handler fuel (n + 1)
        (r.1 + 1, backoffDelayFor opts n :: r.2.1, r.2.2)

/-- A job enqueued with `opts`, executed under the queue's retry contract. -/
def runJob (opts : JobOpts) (handler : Nat → Bool) : Nat × List Nat × Bool :=
  runAttempts opts handler opts.attempts 1

/-! ## Inference worker (workers: `processInferenceJob`,
backend/services/inference.service.js, backend/services/storage.service.js)

Fallible external steps (DB INSERT/UPDATE, Redis publish) are driven by an
environment that says which step throws; `runInference` itself catches its
errors and returns a value, so scoring never throws. -/

/-- One row of the `inference_results` table. -/
structure ResultRow where
  frame_id : Nat
  emotion_label : String
  emotion_confidence : Option ℚ
  redness_label : String
  redness_confidence : Option ℚ
  processing_time_ms : Option Nat
deriving DecidableEq

/-- The failure marker written by the worker's catch block: `ERROR` labels and
null confidences. -/
def isSentinel (r : ResultRow) : Bool :=
  r.emotion_label == "ERROR" && r.redness_label == "ERROR" &&
    r.emotion_confidence.isNone && r.redness_confidence.isNone

/-- What `InferenceService.processFrame` extracts from the two model calls. -/
structure InferOutput where
  emotionLabel : String
  emotionConf : Option ℚ
  rednessLabel : String
  rednessConf : Option ℚ
deriving DecidableEq

/-- Database state: the `inference_results` rows (in insertion order) and each
frame's `processed` flag. -/
structure Db where
  results : List ResultRow
  frames : List (Nat × Bool)
deriving DecidableEq

/-- The row-wise effect of `UPDATE frames SET processed = true WHERE id = f`. -/
def setProcessedEntry (f : Nat) (p : Nat × Bool) : Nat × Bool :=
  if p.1 = f then (p.1, true) else p

/-- `StorageService.markFrameProcessed`:
`Frame.update({ processed: true }, { where: { id: frameId } })`. -/
def markFrameProcessed (frameId : Nat) (db : Db) : Db :=
  { db with frames := db.frames.map (setProcessedEntry frameId) }

/-- The effect environment of one job attempt: the scorer's extracted output
and, for each fallible step, `some e` when that step throws `e`. -/
structure JobEnv where
  scorer : InferOutput
  processFrameInsertErr : Option String
  workerInsertErr : Option String
  markErr : Option String
  publishErr : Option String
  sentinelInsertErr : Option String
deriving DecidableEq

/-- `InferenceService.processFrame`: run both models (never throws), INSERT
one `inference_results` row (without `processing_time_ms`), and return the
extracted labels; a thrown DB error propagates to the caller. -/
def processFrame (frameId : Nat) (env : JobEnv) (db : Db) :
    Db × Except String InferOutput :=
  match env.processFrameInsertErr with
  | some e => (db, .error e)
  | none =>
      ({ db with results := db.results ++
          [⟨frameId, env.scorer.emotionLabel, env.scorer.emotionConf,
            env.scorer.rednessLabel, env.scorer.rednessConf, none⟩] },
        .ok env.scorer)

/-- The sentinel failure row `processInferenceJob`'s catch block writes. -/
def sentinelRow (frameId elapsed : Nat) : ResultRow :=
  ⟨frameId, "ERROR", none, "ERROR", none, some elapsed⟩

/-- The catch block's best-effort sentinel write: its own failure is only
logged and swallowed. -/
def logSentinel (frameId elapsed : Nat) (env : JobEnv) (db : Db) : Db :=
  match env.sentinelInsertErr with
  | some _ => db
  | none => { db with results := db.results ++ [sentinelRow frameId elapsed] }

/-- The Result Event published on `inference-results` when the job carries a
session id. -/
structure ResultEvent where
  sessionId : String
  frameId : Nat
  output : InferOutput
deriving DecidableEq

/-- `processInferenceJob` (frame-processor worker): score via
`InferenceService.processFrame`, INSERT the worker's own result row (with
`processing_time_ms`), mark the frame processed, publish when a session id is
present; any thrown error is caught, a sentinel row is best-effort persisted,
and the original error is re-thrown for the queue's retry mechanism. -/
def processInferenceJob (frameId : Nat) (sessionId : Option String) (elapsed : Nat)
    (env : JobEnv) (db : Db) : Db × Except String (Option ResultEvent) :=
  match processFrame frameId env db with
  | (db1, .error e) => (logSentinel frameId elapsed env db1, .error e)
  | (db1, .ok results) =>
      match env.workerInsertErr with
      | some e => (logSentinel frameId elapsed env db1, .error e)
      | none =>
          let db2 := { db1 with results := db1.results ++
              [⟨frameId, results.emotionLabel, results.emotionConf,
                results.rednessLabel, results.rednessConf, some elapsed⟩] }
          match env.markErr with
          | some e => (logSentinel frameId elapsed env db2, .error e)
          | none =>
              let db3 := markFrameProcessed frameId db2
              match sessionId with
              | some sid =>
                  match env.publishErr with
                  | some e => (logSentinel frameId elapsed env db3, .error e)
                  | none => (db3, .ok (some ⟨sid, frameId, results⟩))
              | none => (db3, .ok none)

/-! ## Claims C2 and C4: inference job outcomes -/

/-- Rows recorded for a frame that are real results (not the failure marker). -/
def nonSentinelCount (db : Db) (frameId : Nat) : Nat :=
  (db.results.filter fun r => r.frame_id == frameId && !(isSentinel r)).length

/-- Failure-marker rows recorded for a frame. -/
def sentinelCount (db : Db) (frameId : Nat) : Nat :=
  (db.results.filter fun r => r.frame_id == frameId && isSentinel r).length

/-- An attempt in which every external step succeeds. -/
def successEnv (scorer : InferOutput) : JobEnv :=
  ⟨scorer, none, none, none, none, none⟩

/-- An attempt in which the result INSERT inside
`InferenceService.processFrame` throws (sentinel write still succeeds). -/
def scoreFailEnv (scorer : InferOutput) (e : String) : JobEnv :=
  ⟨scorer, some e, none, none, none, none⟩

theorem lookupKV_setProcessed (l : List (Nat × Bool)) (f : Nat) :
    lookupKV (l.map (setProcessedEntry f)) f
      = (lookupKV l f).map fun _ => true := by
  induction l with
  | nil => simp [lookupKV]
  | cons p rest ih =>
      obtain ⟨k, b⟩ := p
      by_cases hk : k = f
      · subst hk
        have hhead : setProcessedEntry k (k, b) = (k, true) := by
          simp [setProcessedEntry]
        rw [List.map_cons, hhead]
        simp [lookupKV]
      · have hhead : setProcessedEntry f (k, b) = (k, b) := by
          simp [setProcessedEntry, hk]
        rw [List.map_cons, hhead]
        simp [lookupKV, hk, ih]

/-- One failing attempt (failure inside `processFrame`, sentinel write OK):
the database gains exactly the sentinel row, frames are untouched, and the
original error is re-thrown. -/
theorem attempt_fail_adds_sentinel (frameId : Nat) (sid : Option String)
    (elapsed : Nat) (scorer : InferOutput) (e : String) (db : Db) :
    (processInferenceJob frameId sid elapsed (scoreFailEnv scorer e) db).1.results
        = db.results ++ [sentinelRow frameId elapsed] ∧
    (processInferenceJob frameId sid elapsed (scoreFailEnv scorer e) db).1.frames
        = db.frames ∧
    (processInferenceJob frameId sid elapsed (scoreFailEnv scorer e) db).2
        = Except.error e := by
  refine ⟨?_, ?_, ?_⟩ <;>
    simp [processInferenceJob, processFrame, scoreFailEnv, logSentinel]

/-- Claim C2 counterexample: a fully successful job attempt (session present,
every step succeeding) leaves TWO non-sentinel result rows for its frame —
one INSERTed inside `InferenceService.processFrame`, one by the worker — not
exactly one. -/
theorem successful_job_writes_two_rows :
    nonSentinelCount
        (processInferenceJob 1 (some "sess-a") 12
          (successEnv ⟨"Happy", some 1, "Normal", some 1⟩) ⟨[], [(1, false)]⟩).1 1
      = 2 ∧ (2 : Nat) ≠ 1 := by
  constructor
  · decide
  · decide

/-- Claim C2 (amended): a successful job creates exactly two non-sentinel
rows for its frame (one by `processFrame`, one by the worker) and the frame's
processed flag becomes true; each failed attempt (failure before the frame is
marked, sentinel write succeeding) adds exactly one sentinel row and leaves
the frames untouched, so a job exhausting the inference queue's 2 attempts
leaves two sentinel rows and the processed flag false. -/
theorem inference_result_row_accounting (frameId : Nat) (sid : Option String)
    (elapsed : Nat) (scorer : InferOutput) (db : Db) (e : String)
    (hlabel : scorer.emotionLabel ≠ "ERROR") :
    (nonSentinelCount (processInferenceJob frameId sid elapsed (successEnv scorer) db).1 frameId
        = nonSentinelCount db frameId + 2 ∧
      sentinelCount (processInferenceJob frameId sid elapsed (successEnv scorer) db).1 frameId
        = sentinelCount db frameId ∧
      lookupKV (processInferenceJob frameId sid elapsed (successEnv scorer) db).1.frames frameId
        = (lookupKV db.frames frameId).map fun _ => true) ∧
    (sentinelCount (processInferenceJob frameId sid elapsed (scoreFailEnv scorer e) db).1 frameId
        = sentinelCount db frameId + 1 ∧
      nonSentinelCount (processInferenceJob frameId sid elapsed (scoreFailEnv scorer e) db).1 frameId
        = nonSentinelCount db frameId ∧
      (processInferenceJob frameId sid elapsed (scoreFailEnv scorer e) db).1.frames
        = db.frames) ∧
    (sentinelCount
        (processInferenceJob frameId sid elapsed (scoreFailEnv scorer e)
          (processInferenceJob frameId sid elapsed (scoreFailEnv scorer e) db).1).1 frameId
        = sentinelCount db frameId + addInferenceJobOpts.attempts ∧
      (processInferenceJob frameId sid elapsed (scoreFailEnv scorer e)
          (processInferenceJob frameId sid elapsed (scoreFailEnv scorer e) db).1).1.frames
        = db.frames) := by
  have hb : (scorer.emotionLabel == "ERROR") = false := by
    simp [hlabel]
  obtain ⟨h1, h2, h3⟩ :=
    attempt_fail_adds_sentinel frameId sid elapsed scorer e db
  refine ⟨⟨?_, ?_, ?_⟩, ⟨?_, ?_, h2⟩, ⟨?_, ?_⟩⟩
  · cases sid <;>
      simp [processInferenceJob, processFrame, successEnv, markFrameProcessed,
        nonSentinelCount, List.filter_append, isSentinel, hb]
  · cases sid <;>
      simp [processInferenceJob, processFrame, successEnv, markFrameProcessed,
        sentinelCount, List.filter_append, isSentinel, hb]
  · cases sid <;>
      simp [processInferenceJob, processFrame, successEnv, markFrameProcessed,
        lookupKV_setProcessed]
  · rw [sentinelCount, h1]
    simp [sentinelCount, List.filter_append, isSentinel, sentinelRow]
  · rw [nonSentinelCount, h1]
    simp [nonSentinelCount, List.filter_append, isSentinel, sentinelRow]
  · obtain ⟨g1, g2, g3⟩ :=
      attempt_fail_adds_sentinel frameId sid elapsed scorer e
        (processInferenceJob frameId sid elapsed (scoreFailEnv scorer e) db).1
    rw [sentinelCount, g1, h1]
    simp [sentinelCount, List.filter_append, isSentinel, sentinelRow,
      addInferenceJobOpts]
  · obtain ⟨g1, g2, g3⟩ :=
      attempt_fail_adds_sentinel frameId sid elapsed scorer e
        (processInferenceJob frameId sid elapsed (scoreFailEnv scorer e) db).1
    rw [g2, h2]

theorem inference_result_row_accounting_witness :
    (nonSentinelCount (processInferenceJob 1 (some "sess-a") 12
          (successEnv ⟨"Happy", some 1, "Normal", some 1⟩) ⟨[], [(1, false)]⟩).1 1
        = nonSentinelCount ⟨[], [(1, false)]⟩ 1 + 2 ∧
      sentinelCount (processInferenceJob 1 (some "sess-a") 12
          (successEnv ⟨"Happy", some 1, "Normal", some 1⟩) ⟨[], [(1, false)]⟩).1 1
        = sentinelCount ⟨[], [(1, false)]⟩ 1 ∧
      lookupKV (processInferenceJob 1 (some "sess-a") 12
          (successEnv ⟨"Happy", some 1, "Normal", some 1⟩) ⟨[], [(1, false)]⟩).1.frames 1
        = (lookupKV (⟨[], [(1, false)]⟩ : Db).frames 1).map fun _ => true) ∧
    (sentinelCount (processInferenceJob 1 (some "sess-a") 12
          (scoreFailEnv ⟨"Happy", some 1, "Normal", some 1⟩ "db down") ⟨[], [(1, false)]⟩).1 1
        = sentinelCount ⟨[], [(1, false)]⟩ 1 + 1 ∧
      nonSentinelCount (processInferenceJob 1 (some "sess-a") 12
          (scoreFailEnv ⟨"Happy", some 1, "Normal", some 1⟩ "db down") ⟨[], [(1, false)]⟩).1 1
        = nonSentinelCount ⟨[], [(1, false)]⟩ 1 ∧
      (processInferenceJob 1 (some "sess-a") 12
          (scoreFailEnv ⟨"Happy", some 1, "Normal", some 1⟩ "db down") ⟨[], [(1, false)]⟩).1.frames
        = (⟨[], [(1, false)]⟩ : Db).frames) ∧
    (sentinelCount
        (processInferenceJob 1 (some "sess-a") 12
          (scoreFailEnv ⟨"Happy", some 1, "Normal", some 1⟩ "db down")
          (processInferenceJob 1 (some "sess-a") 12
            (scoreFailEnv ⟨"Happy", some 1, "Normal", some 1⟩ "db down")
            ⟨[], [(1, false)]⟩).1).1 1
        = sentinelCount ⟨[], [(1, false)]⟩ 1 + addInferenceJobOpts.attempts ∧
      (processInferenceJob 1 (some "sess-a") 12
          (scoreFailEnv ⟨"Happy", some 1, "Normal", some 1⟩ "db down")
          (processInferenceJob 1 (some "sess-a") 12
            (scoreFailEnv ⟨"Happy", some 1, "Normal", some 1⟩ "db down")
            ⟨[], [(1, false)]⟩).1).1.frames
        = (⟨[], [(1, false)]⟩ : Db).frames) :=
  inference_result_row_accounting 1 (some "sess-a") 12
    ⟨"Happy", some 1, "Normal", some 1⟩ ⟨[], [(1, false)]⟩ "db down" (by decide)

/-- The first step of `processInferenceJob` that throws, in execution order
(`publish` is only attempted when the job carries a session id). -/
def firstError (env : JobEnv) (sessionId : Option String) : Option String :=
  match env.processFrameInsertErr with
  | some e => some e
  | none =>
      match env.workerInsertErr with
      | some e => some e
      | none =>
          match env.markErr with
          | some e => some e
          | none =>
              match sessionId with
              | some _ => env.publishErr
              | none => none

/-- Claim C4: when any step of the job throws, the worker catches it and
re-raises that original error; when the sentinel INSERT succeeds the sentinel
row is persisted; a failing sentinel INSERT changes nothing except that final
append — in particular the raised error never depends on the sentinel
write. -/
theorem worker_reraises_original_error (frameId : Nat) (sid : Option String)
    (elapsed : Nat) (env : JobEnv) (db : Db) (e : String)
    (h : firstError env sid = some e) :
    (processInferenceJob frameId sid elapsed env db).2 = Except.error e ∧
    (env.sentinelInsertErr = none →
      sentinelRow frameId elapsed
        ∈ (processInferenceJob frameId sid elapsed env db).1.results) ∧
    (∀ e2 : String,
      (processInferenceJob frameId sid elapsed
            { env with sentinelInsertErr := some e2 } db).1.results
          ++ [sentinelRow frameId elapsed]
        = (processInferenceJob frameId sid elapsed
            { env with sentinelInsertErr := none } db).1.results) ∧
    (∀ s2 : Option String,
      (processInferenceJob frameId sid elapsed
          { env with sentinelInsertErr := s2 } db).2 = Except.error e) := by
  rcases hp : env.processFrameInsertErr with _ | e1
  · rcases hw : env.workerInsertErr with _ | e1
    · rcases hm : env.markErr with _ | e1
      · rcases sid with _ | s
        · simp [firstError, hp, hw, hm] at h
        · rcases hpub : env.publishErr with _ | e1
          · simp [firstError, hp, hw, hm, hpub] at h
          · have he : e1 = e := by
              simpa [firstError, hp, hw, hm, hpub] using h
            subst he
            refine ⟨?_, ?_, ?_, ?_⟩
            · simp [processInferenceJob, processFrame, hp, hw, hm, hpub]
            · intro hsent
              simp [processInferenceJob, processFrame, logSentinel,
                markFrameProcessed, hp, hw, hm, hpub, hsent]
            · intro e2
              simp [processInferenceJob, processFrame, logSentinel,
                markFrameProcessed, hp, hw, hm, hpub]
            · intro s2
              simp [processInferenceJob, processFrame, hp, hw, hm, hpub]
      · have he : e1 = e := by
          simpa [firstError, hp, hw, hm] using h
        subst he
        refine ⟨?_, ?_, ?_, ?_⟩
        · simp [processInferenceJob, processFrame, hp, hw, hm]
        · intro hsent
          simp [processInferenceJob, processFrame, logSentinel, hp, hw, hm, hsent]
        · intro e2
          simp [processInferenceJob, processFrame, logSentinel, hp, hw, hm]
        · intro s2
          simp [processInferenceJob, processFrame, hp, hw, hm]
    · have he : e1 = e := by
        simpa [firstError, hp, hw] using h
      subst he
      refine ⟨?_, ?_, ?_, ?_⟩
      · simp [processInferenceJob, processFrame, hp, hw]
      · intro hsent
        simp [processInferenceJob, processFrame, logSentinel, hp, hw, hsent]
      · intro e2
        simp [processInferenceJob, processFrame, logSentinel, hp, hw]
      · intro s2
        simp [processInferenceJob, processFrame, hp, hw]
  · have he : e1 = e := by
      simpa [firstError, hp] using h
    subst he
    refine ⟨?_, ?_, ?_, ?_⟩
    · simp [processInferenceJob, processFrame, hp]
    · intro hsent
      simp [processInferenceJob, processFrame, logSentinel, hp, hsent]
    · intro e2
      simp [processInferenceJob, processFrame, logSentinel, hp]
    · intro s2
      simp [processInferenceJob, processFrame, hp]

theorem worker_reraises_original_error_witness :
    (processInferenceJob 1 (some "sess-a") 12
        ⟨⟨"Happy", some 1, "Normal", some 1⟩, none, none, none, some "redis down", none⟩
        ⟨[], [(1, false)]⟩).2 = Except.error "redis down" ∧
    ((⟨⟨"Happy", some 1, "Normal", some 1⟩, none, none, none, some "redis down", none⟩ :
        JobEnv).sentinelInsertErr = none →
      sentinelRow 1 12
        ∈ (processInferenceJob 1 (some "sess-a") 12
            ⟨⟨"Happy", some 1, "Normal", some 1⟩, none, none, none, some "redis down", none⟩
            ⟨[], [(1, false)]⟩).1.results) ∧
    (∀ e2 : String,
      (processInferenceJob 1 (some "sess-a") 12
            { (⟨⟨"Happy", some 1, "Normal", some 1⟩, none, none, none, some "redis down", none⟩ :
                JobEnv) with sentinelInsertErr := some e2 }
            ⟨[], [(1, false)]⟩).1.results
          ++ [sentinelRow 1 12]
        = (processInferenceJob 1 (some "sess-a") 12
            { (⟨⟨"Happy", some 1, "Normal", some 1⟩, none, none, none, some "redis down", none⟩ :
                JobEnv) with sentinelInsertErr := none }
            ⟨[], [(1, false)]⟩).1.results) ∧
    (∀ s2 : Option String,
      (processInferenceJob 1 (some "sess-a") 12
          { (⟨⟨"Happy", some 1, "Normal", some 1⟩, none, none, none, some "redis down", none⟩ :
              JobEnv) with sentinelInsertErr := s2 }
          ⟨[], [(1, false)]⟩).2 = Except.error "redis down") :=
  worker_reraises_original_error 1 (some "sess-a") 12
    ⟨⟨"Happy", some 1, "Normal", some 1⟩, none, none, none, some "redis down", none⟩
    ⟨[], [(1, false)]⟩ "redis down" (by decide)

/-! ## Claim C1: per-session delivery -/

theorem sendToSession_foldl {μ : Type} (rs : Nat → Nat) (e : μ) :
    ∀ (conns : List Nat) (c : Nat) (w : List (Nat × μ)),
      conns.foldl
        (fun acc ws =>
          if sendToClient rs ws then (acc.1 + 1, acc.2 ++ [(ws, e)]) else acc)
        (c, w) =
      (c + (conns.filter fun ws => sendToClient rs ws).length,
        w ++ (conns.filter fun ws => sendToClient rs ws).map fun ws => (ws, e)) := by
  intro conns
  induction conns with
  | nil => intro c w; simp
  | cons x xs ih =>
      intro c w
      by_cases hx : sendToClient rs x
      · rw [List.foldl_cons]
        simp only [hx, if_true]
        rw [ih]
        have hf : List.filter (fun ws => sendToClient rs ws) (x :: xs)
            = x :: List.filter (fun ws => sendToClient rs ws) xs := by
          simp [List.filter_cons, hx]
        rw [hf]
        simp only [List.length_cons, List.map_cons, Prod.mk.injEq]
        exact ⟨by omega, by simp⟩
      · rw [List.foldl_cons]
        simp only [hx, if_false]
        rw [ih]
        have hf : List.filter (fun ws => sendToClient rs ws) (x :: xs)
            = List.filter (fun ws => sendToClient rs ws) xs := by
          simp [List.filter_cons, hx]
        rw [hf]
        simp

/-- Claim C1: for a session with `k` live (OPEN) local connections,
`sendToSession` writes the event unchanged to exactly those `k` connections
and returns `k`; for a session with no local connections it returns `0`
(writing nothing, raising nothing). -/
theorem sendToSession_delivers {μ : Type} (st : WSState) (rs : Nat → Nat)
    (sid : String) (e : μ) (conns : List Nat)
    (hs : lookupKV st.sessions sid = some conns) :
    (sendToSession st rs sid e).1 = (conns.filter fun ws => sendToClient rs ws).length ∧
    (sendToSession st rs sid e).2 =
      (conns.filter fun ws => sendToClient rs ws).map (fun ws => (ws, e)) ∧
    ∀ sid2 : String, lookupKV st.sessions sid2 = none →
      sendToSession st rs sid2 e = (0, []) := by
  refine ⟨?_, ?_, ?_⟩
  · simp only [sendToSession, hs]
    rw [sendToSession_foldl]
    simp
  · simp only [sendToSession, hs]
    rw [sendToSession_foldl]
    simp
  · intro sid2 h2
    simp only [sendToSession, h2]

/-- A service state with one session holding three sockets, socket 2 closed. -/
def exState3 : WSState :=
  ⟨[(0, ⟨"sess-a", 0, "ip0", true, []⟩), (1, ⟨"sess-a", 0, "ip1", true, []⟩),
    (2, ⟨"sess-a", 0, "ip2", true, []⟩)],
   [("sess-a", [0, 1, 2])]⟩

/-- Socket 2 is CLOSED (readyState 3); the rest are OPEN. -/
def exReady : Nat → Nat := fun ws => if ws = 2 then 3 else 1

theorem sendToSession_delivers_witness :
    (sendToSession exState3 exReady "sess-a" "evt").1 =
      (([0, 1, 2].filter fun ws => sendToClient exReady ws).length) ∧
    (sendToSession exState3 exReady "sess-a" "evt").2 =
      (([0, 1, 2].filter fun ws => sendToClient exReady ws).map fun ws => (ws, "evt")) ∧
    ∀ sid2 : String, lookupKV exState3.sessions sid2 = none →
      sendToSession exState3 exReady sid2 "evt" = (0, []) :=
  sendToSession_delivers exState3 exReady "sess-a" "evt" [0, 1, 2] (by decide)

/-! ## Claim C6: connection acceptance -/

/-- Claim C6 counterexample: a handshake request carrying a client-supplied
session identifier still gets a freshly generated one — the supplied
identifier is never reused, and the acknowledgment carries the generated
identifier. -/
theorem handleConnection_ignores_supplied_session :
    ((lookupKV (handleConnection ⟨[], []⟩ (fun _ => 1) 0 "fresh-uuid" 5
        ⟨"127.0.0.1", some "client-supplied"⟩).1.clients 0).map ClientInfo.sessionId
      = some "fresh-uuid") ∧
    ((handleConnection ⟨[], []⟩ (fun _ => 1) 0 "fresh-uuid" 5
        ⟨"127.0.0.1", some "client-supplied"⟩).2
      = [(0, OutMsg.connection "fresh-uuid" "Connected successfully")]) ∧
    ("fresh-uuid" : String) ≠ "client-supplied" := by decide

/-- Claim C6 (amended): on accepting a transport connection the manager
always assigns a freshly generated session identifier (one supplied by the
client is ignored), registers the connection under it in both maps, and sends
the client a connection-acknowledgment event carrying that identifier. -/
theorem handleConnection_fresh_session (st : WSState) (rs : Nat → Nat) (ws : Nat)
    (freshId : String) (now : Nat) (req : ConnRequest)
    (hopen : rs ws = 1) :
    (handleConnection st rs ws freshId now req).2 =
      [(ws, OutMsg.connection freshId "Connected successfully")] ∧
    lookupKV (handleConnection st rs ws freshId now req).1.clients ws =
      some ⟨freshId, now, req.remoteAddress, true, []⟩ ∧
    (∃ conns, lookupKV (handleConnection st rs ws freshId now req).1.sessions freshId
        = some conns ∧ ws ∈ conns) ∧
    ∀ supplied : Option String,
      handleConnection st rs ws freshId now ⟨req.remoteAddress, supplied⟩ =
        handleConnection st rs ws freshId now req := by
  refine ⟨?_, ?_, ?_, ?_⟩
  · simp [handleConnection, sendToClient, hopen]
  · simp [handleConnection, lookupKV_setKV_self]
  · exact ⟨addSet ((lookupKV st.sessions freshId).getD []) ws,
      by simp [handleConnection, lookupKV_setKV_self],
      mem_addSet.mpr (Or.inr rfl)⟩
  · intro supplied
    rfl

theorem handleConnection_fresh_session_witness :
    (handleConnection ⟨[], []⟩ (fun _ => 1) 0 "fresh-uuid" 5
        ⟨"127.0.0.1", none⟩).2 =
      [(0, OutMsg.connection "fresh-uuid" "Connected successfully")] ∧
    lookupKV (handleConnection ⟨[], []⟩ (fun _ => 1) 0 "fresh-uuid" 5
        ⟨"127.0.0.1", none⟩).1.clients 0 =
      some ⟨"fresh-uuid", 5, "127.0.0.1", true, []⟩ ∧
    (∃ conns, lookupKV (handleConnection ⟨[], []⟩ (fun _ => 1) 0 "fresh-uuid" 5
        ⟨"127.0.0.1", none⟩).1.sessions "fresh-uuid" = some conns ∧ 0 ∈ conns) ∧
    ∀ supplied : Option String,
      handleConnection ⟨[], []⟩ (fun _ => 1) 0 "fresh-uuid" 5 ⟨"127.0.0.1", supplied⟩ =
        handleConnection ⟨[], []⟩ (fun _ => 1) 0 "fresh-uuid" 5 ⟨"127.0.0.1", none⟩ :=
  handleConnection_fresh_session ⟨[], []⟩ (fun _ => 1) 0 "fresh-uuid" 5
    ⟨"127.0.0.1", none⟩ rfl

/-! ## Claim C7: payload classification and the JSON vocabulary -/

/-- Claim C7 counterexample: a `request_inference` message is NOT part of the
handled vocabulary — it falls to the unknown-type fallback — while
`request_blink_detection` is handled. -/
theorem request_inference_not_in_vocabulary :
    handleJsonMessage 0 ⟨"request_inference", some ⟨some 1⟩⟩
      = JsonAction.unknownLogged "request_inference" ∧
    handleJsonMessage 0 ⟨"request_blink_detection", some ⟨some 1⟩⟩
      = JsonAction.sendBlinkQueued 1 := by decide

/-- Claim C7 (amended): dispatch classifies every inbound payload — binary
payloads go to the frame-ingestion handler, a string that fails JSON parsing
is treated as freeform text (not an error) — and structured payloads are
matched against exactly the vocabulary
{`ping`, `get_stats`, `request_blink_detection`} (not `request_inference`),
with any unknown type logged and ignored. -/
theorem dispatch_vocabulary (st : WSState) (ws : Nat) (info : ClientInfo) (now : Nat)
    (hcl : lookupKV st.clients ws = some info) :
    (∀ bytes, handleMessage st ws (.binary bytes) = .binary_message bytes) ∧
    (∀ raw, handleMessage st ws (.text raw none) = .text_message raw) ∧
    (∀ raw m, handleMessage st ws (.text raw (some m)) = .json_message m) ∧
    (∀ d, handleJsonMessage now ⟨"ping", d⟩ = .sendPong now) ∧
    (∀ d, handleJsonMessage now ⟨"get_stats", d⟩ = .sendStats) ∧
    (∀ fid, handleJsonMessage now ⟨"request_blink_detection", some ⟨some (fid + 1)⟩⟩
        = .sendBlinkQueued (fid + 1)) ∧
    ∀ t d, t ∉ (["ping", "get_stats", "request_blink_detection"] : List String) →
      handleJsonMessage now ⟨t, d⟩ = .unknownLogged t := by
  refine ⟨?_, ?_, ?_, fun d => rfl, fun d => rfl, fun fid => rfl, ?_⟩
  · intro bytes
    simp [handleMessage, hcl]
  · intro raw
    simp [handleMessage, hcl]
  · intro raw m
    simp [handleMessage, hcl]
  · intro t d ht
    simp only [List.mem_cons, List.not_mem_nil, or_false, not_or] at ht
    obtain ⟨h1, h2, h3⟩ := ht
    simp [handleJsonMessage, h1, h2, h3]

theorem dispatch_vocabulary_witness :
    (∀ bytes, handleMessage exState3 0 (.binary bytes) = .binary_message bytes) ∧
    (∀ raw, handleMessage exState3 0 (.text raw none) = .text_message raw) ∧
    (∀ raw m, handleMessage exState3 0 (.text raw (some m)) = .json_message m) ∧
    (∀ d, handleJsonMessage 7 ⟨"ping", d⟩ = .sendPong 7) ∧
    (∀ d, handleJsonMessage 7 ⟨"get_stats", d⟩ = .sendStats) ∧
    (∀ fid, handleJsonMessage 7 ⟨"request_blink_detection", some ⟨some (fid + 1)⟩⟩
        = .sendBlinkQueued (fid + 1)) ∧
    ∀ t d, t ∉ (["ping", "get_stats", "request_blink_detection"] : List String) →
      handleJsonMessage 7 ⟨t, d⟩ = .unknownLogged t :=
  dispatch_vocabulary exState3 0 ⟨"sess-a", 0, "ip0", true, []⟩ 7 (by decide)

/-! ## Claim C8: Result Bus subscription at startup -/

/-- Claim C8 counterexample: a failed channel subscription is caught and only
logged; the service still finishes starting and keeps running (half-connected)
instead of aborting. -/
theorem subscribe_failure_not_fatal :
    (wsServiceStartup (Except.error "redis down")).2 = true ∧
    (wsServiceStartup (Except.error "redis down")).1.startupAborted = false ∧
    (wsServiceStartup (Except.error "redis down")).1.loggedError = some "redis down" := by
  decide

/-- Claim C8 (amended): at startup the manager requests subscriptions to all
four Result Bus channels; a failure of that subscription is caught and only
logged, and the service continues starting — it is not fatal to the process's
readiness. -/
theorem startup_subscribes_all_channels (r : Except String Unit) :
    (wsServiceStartup r).1.channelsRequested = redisChannels ∧
    redisChannels =
      ["blink-updates", "sensor-updates", "inference-results", "broadcast"] ∧
    (wsServiceStartup r).2 = true ∧
    (wsServiceStartup r).1.startupAborted = false ∧
    ∀ e, r = Except.error e → (wsServiceStartup r).1.loggedError = some e := by
  cases r <;> simp [wsServiceStartup, setupRedisSubscriptions, redisChannels]

/-! ## Claim C3: heartbeat timing -/

theorem hbRun_pongs_alive (m : Nat) :
    hbRun ⟨true, false⟩ (List.replicate m HBEvent.pong) = ⟨true, false⟩ := by
  induction m with
  | zero => rfl
  | succ m ih =>
      rw [List.replicate_succ]
      show hbRun (hbStep ⟨true, false⟩ HBEvent.pong) (List.replicate m HBEvent.pong) = _
      simpa [hbStep] using ih

theorem hbRun_responsive (ns : List Nat) (h : ∀ n ∈ ns, 0 < n) :
    hbRun ⟨true, false⟩ (roundTrace ns) = ⟨true, false⟩ := by
  induction ns with
  | nil => rfl
  | cons n rest ih =>
      have hn : 0 < n := h n (List.mem_cons_self n rest)
      obtain ⟨m, rfl⟩ : ∃ m, n = m + 1 := ⟨n - 1, by omega⟩
      rw [roundTrace, List.flatMap_cons]
      rw [hbRun, List.foldl_append]
      have h1 : List.foldl hbStep ⟨true, false⟩
          (HBEvent.tick :: List.replicate (m + 1) HBEvent.pong) = ⟨true, false⟩ := by
        rw [List.replicate_succ]
        show List.foldl hbStep (hbStep (hbStep ⟨true, false⟩ HBEvent.tick) HBEvent.pong)
            (List.replicate m HBEvent.pong) = _
        have : hbStep (hbStep ⟨true, false⟩ HBEvent.tick) HBEvent.pong = ⟨true, false⟩ := by
          simp [hbStep]
        rw [this]
        exact hbRun_pongs_alive m
      rw [h1]
      exact ih fun n hn2 => h n (List.mem_cons_of_mem _ hn2)

theorem hbRun_stays_terminated (k : Nat) :
    ∀ c : HBConn, c.terminated = true →
      (hbRun c (List.replicate k HBEvent.tick)).terminated = true := by
  induction k with
  | zero => intro c h; simpa [hbRun] using h
  | succ k ih =>
      intro c h
      rw [List.replicate_succ]
      show (hbRun (hbStep c HBEvent.tick) (List.replicate k HBEvent.tick)).terminated = true
      exact ih _ (by simp [hbStep, h])

/-- Claim C3: a connection that answers every liveness probe within the
interval is never terminated by the heartbeat; a connection that never
answers is not terminated on the tick that sends the probe, but is terminated
on the next tick — exactly one full interval later — and stays terminated. -/
theorem heartbeat_terminates_after_one_silent_interval (ns : List Nat)
    (hresp : ∀ n ∈ ns, 0 < n) :
    (hbRun hbFresh (roundTrace ns)).terminated = false ∧
    (hbRun hbFresh [HBEvent.tick]).terminated = false ∧
    (hbRun hbFresh [HBEvent.tick, HBEvent.tick]).terminated = true ∧
    ∀ k : Nat,
      (hbRun hbFresh (List.replicate (k + 2) HBEvent.tick)).terminated = true := by
  refine ⟨?_, by decide, by decide, ?_⟩
  · rw [show hbFresh = (⟨true, false⟩ : HBConn) from rfl, hbRun_responsive ns hresp]
  · intro k
    rw [List.replicate_succ, List.replicate_succ]
    show (hbRun (hbStep (hbStep hbFresh HBEvent.tick) HBEvent.tick)
        (List.replicate k HBEvent.tick)).terminated = true
    exact hbRun_stays_terminated k _ (by decide)

theorem heartbeat_witness :
    (hbRun hbFresh (roundTrace [1, 2])).terminated = false ∧
    (hbRun hbFresh [HBEvent.tick]).terminated = false ∧
    (hbRun hbFresh [HBEvent.tick, HBEvent.tick]).terminated = true ∧
    ∀ k : Nat,
      (hbRun hbFresh (List.replicate (k + 2) HBEvent.tick)).terminated = true :=
  heartbeat_terminates_after_one_silent_interval [1, 2] (by decide)

/-! ## Claim C5: retry counts and backoff delays -/

theorem runAttempts_le_fuel (opts : JobOpts) (handler : Nat → Bool) :
    ∀ fuel n : Nat, (runAttempts opts handler fuel n).1 ≤ fuel := by
  intro fuel
  induction fuel with
  | zero => intro n; simp [runAttempts]
  | succ fuel ih =>
      intro n
      by_cases h : handler n
      · simp [runAttempts, h]
      · by_cases hf : fuel = 0
        · subst hf
          simp [runAttempts, h]
        · simp only [runAttempts, h, if_false, hf]
          exact Nat.succ_le_succ (ih (n + 1))

/-- Claim C5: an always-failing job on the inference queue is attempted
exactly 2 times with one constant 5s delay; on the ingestion queue exactly 3
times with strictly increasing exponential delays 2s, 4s; and no job is ever
attempted more than its policy's `attempts`. -/
theorem queue_retry_policy :
    runJob addInferenceJobOpts (fun _ => false) = (2, [5000], false) ∧
    runJob addFrameJobOpts (fun _ => false) = (3, [2000, 4000], false) ∧
    List.Chain' (· < ·) [2000, 4000] ∧
    ∀ (opts : JobOpts) (handler : Nat → Bool),
      (runJob opts handler).1 ≤ opts.attempts := by
  refine ⟨by decide, by decide, by norm_num [List.chain'_cons], ?_⟩
  intro opts handler
  exact runAttempts_le_fuel opts handler opts.attempts 1

/-! ## Claims C9 and C10: registry invariants -/

/-- Well-formedness of the JS containers: each `Map` binds a key at most once
and each stored `Set` has no duplicates. -/
def WSWF (st : WSState) : Prop :=
  NodupKeys st.clients ∧ NodupKeys st.sessions ∧
    ∀ sid conns, (sid, conns) ∈ st.sessions → conns.Nodup

/-- Mutual consistency of the two maps: every client socket is a member of
its recorded session's set, every socket in a stored set is a client recorded
under that session identifier, and no stored set is empty. -/
def WSInv (st : WSState) : Prop :=
  (∀ ws info, (ws, info) ∈ st.clients →
      ∃ conns, lookupKV st.sessions info.sessionId = some conns ∧ ws ∈ conns) ∧
  (∀ sid conns, (sid, conns) ∈ st.sessions → ∀ ws, ws ∈ conns →
      ∃ info, lookupKV st.clients ws = some info ∧ info.sessionId = sid) ∧
  (∀ sid conns, (sid, conns) ∈ st.sessions → conns ≠ [])

theorem handleConnection_preserves (st : WSState) (rs : Nat → Nat) (ws : Nat)
    (freshId : String) (now : Nat) (req : ConnRequest)
    (hwf : WSWF st) (hinv : WSInv st) (hfresh : lookupKV st.clients ws = none) :
    WSWF (handleConnection st rs ws freshId now req).1 ∧
    WSInv (handleConnection st rs ws freshId now req).1 := by
  obtain ⟨hndC, hndS, hsets⟩ := hwf
  obtain ⟨hi1, hi2, hi3⟩ := hinv
  obtain ⟨conns0, hg⟩ : ∃ c, (lookupKV st.sessions freshId).getD [] = c := ⟨_, rfl⟩
  have hstate : (handleConnection st rs ws freshId now req).1 =
      ⟨setKV st.clients ws ⟨freshId, now, req.remoteAddress, true, []⟩,
        setKV st.sessions freshId
          (addSet ((lookupKV st.sessions freshId).getD []) ws)⟩ := rfl
  rw [hstate, hg]
  have hnd0 : conns0.Nodup := by
    cases h0 : lookupKV st.sessions freshId with
    | none =>
        rw [h0] at hg
        simp only [Option.getD_none] at hg
        subst hg
        exact List.nodup_nil
    | some c =>
        rw [h0] at hg
        simp only [Option.getD_some] at hg
        subst hg
        exact hsets _ _ (mem_of_lookupKV_eq_some h0)
  have hmem0 : ∀ w, w ∈ conns0 → (freshId, conns0) ∈ st.sessions := by
    intro w hw
    cases h0 : lookupKV st.sessions freshId with
    | none =>
        rw [h0] at hg
        simp only [Option.getD_none] at hg
        subst hg
        simp at hw
    | some c =>
        rw [h0] at hg
        simp only [Option.getD_some] at hg
        subst hg
        exact mem_of_lookupKV_eq_some h0
  constructor
  · refine ⟨nodupKeys_setKV _ _ hndC, nodupKeys_setKV _ _ hndS, ?_⟩
    intro sid conns hmem
    rcases (mem_setKV hndS).mp hmem with ⟨_, hc⟩ | ⟨hmem2, _⟩
    · subst hc
      exact nodup_addSet _ hnd0
    · exact hsets _ _ hmem2
  · refine ⟨?_, ?_, ?_⟩
    · intro w i hmem
      rcases (mem_setKV hndC).mp hmem with ⟨hw, hi⟩ | ⟨hmem2, hne⟩
      · subst hw
        subst hi
        exact ⟨_, lookupKV_setKV_self _ _ _, mem_addSet.mpr (Or.inr rfl)⟩
      · obtain ⟨c, hc, hwc⟩ := hi1 w i hmem2
        by_cases hsid : i.sessionId = freshId
        · rw [hsid] at hc
          rw [hc] at hg
          simp only [Option.getD_some] at hg
          subst hg
          refine ⟨addSet c ws, ?_, mem_addSet.mpr (Or.inl hwc)⟩
          rw [hsid]
          exact lookupKV_setKV_self _ _ _
        · refine ⟨c, ?_, hwc⟩
          rw [lookupKV_setKV_ne _ _ hsid]
          exact hc
    · intro sid conns hmem w hw
      rcases (mem_setKV hndS).mp hmem with ⟨hsid, hc⟩ | ⟨hmem2, hne⟩
      · subst hsid
        subst hc
        rcases mem_addSet.mp hw with hw0 | hw0
        · obtain ⟨iw, hlw, hsw⟩ := hi2 _ conns0 (hmem0 w hw0) w hw0
          have hwne : w ≠ ws := by
            intro he
            rw [he, hfresh] at hlw
            exact Option.noConfusion hlw
          refine ⟨iw, ?_, hsw⟩
          rw [lookupKV_setKV_ne _ _ hwne]
          exact hlw
        · subst hw0
          exact ⟨_, lookupKV_setKV_self _ _ _, rfl⟩
      · obtain ⟨iw, hlw, hsw⟩ := hi2 sid conns hmem2 w hw
        have hwne : w ≠ ws := by
          intro he
          rw [he, hfresh] at hlw
          exact Option.noConfusion hlw
        refine ⟨iw, ?_, hsw⟩
        rw [lookupKV_setKV_ne _ _ hwne]
        exact hlw
    · intro sid conns hmem
      rcases (mem_setKV hndS).mp hmem with ⟨_, hc⟩ | ⟨hmem2, _⟩
      · subst hc
        exact addSet_ne_nil _ _
      · exact hi3 _ _ hmem2

theorem handleClose_preserves (st : WSState) (ws : Nat)
    (hwf : WSWF st) (hinv : WSInv st) :
    WSWF (handleClose st ws).1 ∧ WSInv (handleClose st ws).1 := by
  obtain ⟨hndC, hndS, hsets⟩ := hwf
  obtain ⟨hi1, hi2, hi3⟩ := hinv
  rcases hcl : lookupKV st.clients ws with _ | info
  · have hstate : handleClose st ws = (st, []) := by
      simp [handleClose, hcl]
    rw [hstate]
    exact ⟨⟨hndC, hndS, hsets⟩, hi1, hi2, hi3⟩
  · have hmemC : (ws, info) ∈ st.clients := mem_of_lookupKV_eq_some hcl
    obtain ⟨conns, hse, hwc⟩ := hi1 ws info hmemC
    have hndconns : conns.Nodup := hsets _ _ (mem_of_lookupKV_eq_some hse)
    by_cases hlen : (delSet conns ws).length = 0
    · have hdel : delSet conns ws = [] := List.length_eq_zero.mp hlen
      have hconns1 : conns = [ws] := (delSet_eq_nil_iff hwc).mp hdel
      have hstate : (handleClose st ws).1 =
          ⟨eraseKV st.clients ws, eraseKV st.sessions info.sessionId⟩ := by
        simp [handleClose, hcl, hse, hlen]
      rw [hstate]
      refine ⟨⟨nodupKeys_eraseKV _ hndC, nodupKeys_eraseKV _ hndS, ?_⟩, ?_, ?_, ?_⟩
      · intro sid c hmem
        exact hsets _ _ ((mem_eraseKV hndS).mp hmem).1
      · intro w i hmem
        obtain ⟨hmem2, hwne⟩ := (mem_eraseKV hndC).mp hmem
        obtain ⟨c, hc, hwcc⟩ := hi1 w i hmem2
        have hsidne : i.sessionId ≠ info.sessionId := by
          intro he
          rw [he, hse] at hc
          have hcc : conns = c := Option.some.inj hc
          rw [← hcc, hconns1] at hwcc
          rw [List.mem_singleton] at hwcc
          exact hwne hwcc
        refine ⟨c, ?_, hwcc⟩
        rw [lookupKV_eraseKV_ne _ hsidne]
        exact hc
      · intro sid c hmem w hw
        obtain ⟨hmem2, hsne⟩ := (mem_eraseKV hndS).mp hmem
        obtain ⟨iw, hlw, hsw⟩ := hi2 sid c hmem2 w hw
        have hwne : w ≠ ws := by
          intro he
          rw [he, hcl] at hlw
          have hiw : info = iw := Option.some.inj hlw
          apply hsne
          rw [← hsw, ← hiw]
        refine ⟨iw, ?_, hsw⟩
        rw [lookupKV_eraseKV_ne _ hwne]
        exact hlw
      · intro sid c hmem
        exact hi3 _ _ ((mem_eraseKV hndS).mp hmem).1
    · have hstate : (handleClose st ws).1 =
          ⟨eraseKV st.clients ws,
            setKV st.sessions info.sessionId (delSet conns ws)⟩ := by
        simp [handleClose, hcl, hse, hlen]
      rw [hstate]
      have hnddel : (delSet conns ws).Nodup := nodup_delSet _ hndconns
      refine ⟨⟨nodupKeys_eraseKV _ hndC, nodupKeys_setKV _ _ hndS, ?_⟩, ?_, ?_, ?_⟩
      · intro sid c hmem
        rcases (mem_setKV hndS).mp hmem with ⟨_, hc⟩ | ⟨hmem2, _⟩
        · subst hc
          exact hnddel
        · exact hsets _ _ hmem2
      · intro w i hmem
        obtain ⟨hmem2, hwne⟩ := (mem_eraseKV hndC).mp hmem
        obtain ⟨c, hc, hwcc⟩ := hi1 w i hmem2
        by_cases hsid : i.sessionId = info.sessionId
        · rw [hsid, hse] at hc
          have hcc : conns = c := Option.some.inj hc
          subst hcc
          refine ⟨delSet conns ws, ?_, (mem_delSet hndconns).mpr ⟨hwcc, hwne⟩⟩
          rw [hsid]
          exact lookupKV_setKV_self _ _ _
        · refine ⟨c, ?_, hwcc⟩
          rw [lookupKV_setKV_ne _ _ hsid]
          exact hc
      · intro sid c hmem w hw
        rcases (mem_setKV hndS).mp hmem with ⟨hsid, hc⟩ | ⟨hmem2, hsne⟩
        · subst hsid
          subst hc
          obtain ⟨hwc2, hwne⟩ := (mem_delSet hndconns).mp hw
          obtain ⟨iw, hlw, hsw⟩ := hi2 info.sessionId conns
            (mem_of_lookupKV_eq_some hse) w hwc2
          refine ⟨iw, ?_, hsw⟩
          rw [lookupKV_eraseKV_ne _ hwne]
          exact hlw
        · obtain ⟨iw, hlw, hsw⟩ := hi2 sid c hmem2 w hw
          have hwne : w ≠ ws := by
            intro he
            rw [he, hcl] at hlw
            have hiw : info = iw := Option.some.inj hlw
            apply hsne
            rw [← hsw, ← hiw]
          refine ⟨iw, ?_, hsw⟩
          rw [lookupKV_eraseKV_ne _ hwne]
          exact hlw
      · intro sid c hmem
        rcases (mem_setKV hndS).mp hmem with ⟨_, hc⟩ | ⟨hmem2, _⟩
        · subst hc
          intro he
          exact hlen (by rw [he]; rfl)
        · exact hi3 _ _ hmem2

/-- Claim C9: after any connection close the registry holds no session with
zero connections; removing the last connection of a session deletes the
session's entry from the registry and emits exactly one session-ended event
(followed only by the client-disconnected event). -/
theorem handleClose_ends_empty_sessions (st : WSState) (ws : Nat)
    (hwf : WSWF st) (hinv : WSInv st) :
    (∀ sid conns, (sid, conns) ∈ (handleClose st ws).1.sessions → conns ≠ []) ∧
    ∀ info, lookupKV st.clients ws = some info →
      lookupKV st.sessions info.sessionId = some [ws] →
      lookupKV (handleClose st ws).1.sessions info.sessionId = none ∧
      (handleClose st ws).2 =
        [Emitted.session_ended info.sessionId,
          Emitted.client_disconnected info.sessionId] := by
  constructor
  · exact (handleClose_preserves st ws hwf hinv).2.2.2
  · intro info hcl hse
    have hstate : handleClose st ws =
        (⟨eraseKV st.clients ws, eraseKV st.sessions info.sessionId⟩,
          [Emitted.session_ended info.sessionId,
            Emitted.client_disconnected info.sessionId]) := by
      simp [handleClose, hcl, hse, delSet]
    rw [hstate]
    exact ⟨lookupKV_eraseKV_self _ hwf.2.1, rfl⟩

/-- A one-client state: socket 0 is the only connection of session
`sess-a`. -/
def exState1 : WSState :=
  ⟨[(0, ⟨"sess-a", 0, "ip0", true, []⟩)], [("sess-a", [0])]⟩

theorem exState1_wf : WSWF exState1 := by
  refine ⟨?_, ?_, ?_⟩ <;> simp [NodupKeys, exState1]

theorem exState1_inv : WSInv exState1 := by
  refine ⟨?_, ?_, ?_⟩
  · intro w i hmem
    simp [exState1] at hmem
    obtain ⟨hw, hi⟩ := hmem
    subst hw
    subst hi
    exact ⟨[0], by simp [exState1, lookupKV], by simp⟩
  · intro sid conns hmem w hw
    simp [exState1] at hmem
    obtain ⟨hs, hc⟩ := hmem
    subst hs
    subst hc
    simp at hw
    subst hw
    exact ⟨⟨"sess-a", 0, "ip0", true, []⟩, by simp [exState1, lookupKV], rfl⟩
  · intro sid conns hmem
    simp [exState1] at hmem
    obtain ⟨hs, hc⟩ := hmem
    subst hc
    simp

theorem handleClose_ends_empty_sessions_witness :
    (∀ sid conns, (sid, conns) ∈ (handleClose exState1 0).1.sessions → conns ≠ []) ∧
    ∀ info, lookupKV exState1.clients 0 = some info →
      lookupKV exState1.sessions info.sessionId = some [0] →
      lookupKV (handleClose exState1 0).1.sessions info.sessionId = none ∧
      (handleClose exState1 0).2 =
        [Emitted.session_ended info.sessionId,
          Emitted.client_disconnected info.sessionId] :=
  handleClose_ends_empty_sessions exState1 0 exState1_wf exState1_inv

/-- Claim C10: over both map-mutating operations the service's two maps stay
mutually consistent — every client socket is in the sessions set recorded for
its session identifier, every socket in a stored set is a client bound to the
same session identifier, and no stored set is empty — provided the accepted
socket was not already registered. -/
theorem wsService_maps_consistent (st : WSState) (rs : Nat → Nat) (ws : Nat)
    (freshId : String) (now : Nat) (req : ConnRequest)
    (hwf : WSWF st) (hinv : WSInv st) (hfresh : lookupKV st.clients ws = none) :
    (WSWF (handleConnection st rs ws freshId now req).1 ∧
      WSInv (handleConnection st rs ws freshId now req).1) ∧
    ∀ ws2 : Nat, WSWF (handleClose st ws2).1 ∧ WSInv (handleClose st ws2).1 :=
  ⟨handleConnection_preserves st rs ws freshId now req hwf hinv hfresh,
    fun ws2 => handleClose_preserves st ws2 hwf hinv⟩

theorem wsService_maps_consistent_witness :
    (WSWF (handleConnection exState1 (fun _ => 1) 1 "sess-b" 9 ⟨"ip1", none⟩).1 ∧
      WSInv (handleConnection exState1 (fun _ => 1) 1 "sess-b" 9 ⟨"ip1", none⟩).1) ∧
    ∀ ws2 : Nat, WSWF (handleClose exState1 ws2).1 ∧ WSInv (handleClose exState1 ws2).1 :=
  wsService_maps_consistent exState1 (fun _ => 1) 1 "sess-b" 9 ⟨"ip1", none⟩
    exState1_wf exState1_inv (by decide)

end VisionCare
